import Mathlib

/-!
Shallow embedding of the typed.pw article service (Go, boltdb variant).

The embedded code is the POST/GET request-handling logic around the
article store: `hashPassword`, `getArticleByID`, the inline gzip
encode/decode blocks shared by `newHandler` and `editHandler`, and the
POST branches of `newHandler` and `editHandler` together with the
error-code mapping they produce (`NetError` with codes 404/401/500).

Modelling conventions:
- Go strings are byte strings; bodies, passwords, salts and digests are
  `List Nat` so that Go `len` is `List.length`.
- The gzip library (`compress/gzip`) is an external collaborator; it is
  modelled as an abstract exactly-reversible codec (`Codec`), as is the
  sha512 hex digest (`Sha512Hex`: an abstract function whose output is a
  128-byte lowercase-hex string).  Both are instantiable (see `plainCodec`
  and `constSha` below), so nothing proved from them is vacuous.
- `uuid.NewV4().String()` is external randomness; the generated value is
  an explicit parameter of the create operation.
- `uint64` fields (`ID`, `ETag`, the bolt sequence) are modelled as `Nat`:
  no claim concerns wrap-around, and reaching `2^64` would take `2^64`
  successful operations on a single store.
- The bolt bucket keyed by `fmt.Sprint(id)` (decimal string of the id) is
  modelled as a map keyed by the `Nat` id itself; decimal rendering is
  injective, so the two key spaces are isomorphic.  Records written by
  this program gob-decode to the struct that was encoded, so the bucket
  stores `Article` values directly.
- Storage write faults of the backing store are external; `Put` is
  modelled as always succeeding.  Read-side failures that the repository
  code itself can produce (missing key, gzip decompression failure) are
  modelled faithfully.
-/

namespace Typed

/-- Go byte string. -/
abbrev Bytes := List Nat

/-- `gzipThreshold = 200` (const block of the main file). -/
def gzipThreshold : Nat := 200

/-- `postLimit = 30000` (const block of the main file). -/
def postLimit : Nat := 30000

/-- The `Article` struct: `ID uint64; Password string; Salt string;
Markdown string; Gziped bool; ETag uint64`. -/
structure Article where
  ID : Nat
  Password : Bytes
  Salt : Bytes
  Markdown : Bytes
  Gziped : Bool
  ETag : Nat
deriving DecidableEq

/-- The gzip codec (`compress/gzip` at `gzip.BestCompression`), an
external library modelled as an abstract exactly-reversible compressor.
`decompress` is partial on arbitrary inputs (corrupt data fails) but
always succeeds on `compress` output. -/
structure Codec where
  compress : Bytes → Bytes
  decompress : Bytes → Option Bytes
  roundtrip : ∀ s, decompress (compress s) = some s

/-- Lowercase hex digit bytes: ASCII `0`-`9` and `a`-`f` (Go `%x`). -/
def isHexByte (n : Nat) : Bool := (48 ≤ n && n ≤ 57) || (97 ≤ n && n ≤ 102)

/-- `fmt.Sprintf("%x", sha512.Sum512 b)`: external crypto modelled as an
abstract deterministic function producing a 128-character lowercase hex
string (sha512 yields 64 bytes, rendered as 128 hex digits). -/
structure Sha512Hex where
  sum : Bytes → Bytes
  length_eq : ∀ b, (sum b).length = 128
  hex_only : ∀ b, ∀ c ∈ sum b, isHexByte c = true

/-- `hashPassword(p, salt string) string`: empty password gives the empty
sentinel digest, otherwise the hex sha512 of the concatenation `p+salt`. -/
def hashPassword (h : Sha512Hex) (p salt : Bytes) : Bytes :=
  if p = [] then [] else h.sum (p ++ salt)

/-- The `articles` bolt bucket: its `NextSequence` counter and the
records keyed by id. -/
structure DB where
  seq : Nat
  articles : Nat → Option Article

/-- A freshly created bucket. -/
def emptyDB : DB := ⟨0, fun _ => none⟩

/-- Read-side failures produced by `getArticleByID` itself:
the `notFound` sentinel error, or a gzip decompression failure on a
corrupt record. -/
inductive StoreErr where
  | notFound
  | gzipError
deriving DecidableEq

/-- `err.Error()` text used when a handler copies the error message into
a `NetError` (the gzip message text is representative). -/
def StoreErr.msg : StoreErr → String
  | .notFound => "not found"
  | .gzipError => "gzip: invalid header"

/-- The gzip branch of `getArticleByID` (and of the spec Content Codec
contract): `decode(bytes, isCompressed)`. -/
def decode (c : Codec) (m : Bytes) (gz : Bool) : Option Bytes :=
  if gz then c.decompress m else some m

/-- `getArticleByID`: look up the record, decompress `Markdown` when
`Gziped`, clear the flag, and set `ID` from the lookup key. -/
def getArticleByID (c : Codec) (db : DB) (id : Nat) : Except StoreErr Article :=
  match db.articles id with
  | none => .error .notFound
  | some a =>
    match decode c a.Markdown a.Gziped with
    | none => .error .gzipError
    | some m => .ok { a with Markdown := m, Gziped := false, ID := id }

/-- The inline compression block shared by `newHandler` and
`editHandler`: compress exactly when `len(m) >= gzipThreshold`. -/
def encode (c : Codec) (m : Bytes) : Bytes × Bool :=
  if m.length ≥ gzipThreshold then (c.compress m, true) else (m, false)

/-- `NetError{Code, Message}` as returned by the handlers. -/
structure NetError where
  code : Nat
  message : String
deriving DecidableEq

/-- A POST request as the handlers see it: the raw request-body length
(what `http.MaxBytesReader` meters) and the two form fields. -/
structure Request where
  rawLen : Nat
  newpassword : Bytes
  newbody : Bytes
deriving DecidableEq

/-- Form parsing on the create path: `newHandler` wraps the body in
`http.MaxBytesReader(w, r.Body, postLimit)` before `r.ParseForm()` and
ignores the parse error, so an oversized body leaves both form fields
empty. -/
def parsedNewForm (r : Request) : Bytes × Bytes :=
  if r.rawLen > postLimit then ([], []) else (r.newpassword, r.newbody)

/-- Form parsing on the edit path: `editHandler` calls `r.ParseForm()`
with no size ceiling. -/
def parsedEditForm (r : Request) : Bytes × Bytes :=
  (r.newpassword, r.newbody)

/-- The POST branch of `newHandler`: parse the (size-capped) form,
generate salt and digest only when a password was supplied, encode the
body, allocate `NextSequence`, store the record with `ETag = 0`, and
redirect to the new id. -/
def newHandlerPost (c : Codec) (h : Sha512Hex) (uuid : Bytes) (db : DB)
    (r : Request) : DB × Except NetError Nat :=
  let pw := (parsedNewForm r).1
  let s : Bytes := if pw ≠ [] then uuid else []
  let p : Bytes := if pw ≠ [] then hashPassword h pw s else []
  let mg := encode c (parsedNewForm r).2
  let id := db.seq + 1
  let a : Article := ⟨id, p, s, mg.1, mg.2, 0⟩
  (⟨id, fun k => if k = id then some a else db.articles k⟩, .ok id)

/-- The POST branch of `editHandler`: fetch the record (any fetch error,
including `notFound`, becomes a 500), check
`a.Password == "" || hashPassword(supplied, a.Salt) != a.Password`
(401 on failure), re-encode the body, bump `ETag`, store the replacement
record under the same key, and redirect carrying the new `ETag`. -/
def editHandlerPost (c : Codec) (h : Sha512Hex) (db : DB) (id : Nat)
    (r : Request) : DB × Except NetError Nat :=
  match getArticleByID c db id with
  | .error e => (db, .error ⟨500, e.msg⟩)
  | .ok a =>
    if a.Password = [] ∨ hashPassword h (parsedEditForm r).1 a.Salt ≠ a.Password then
      (db, .error ⟨401, "wrong password"⟩)
    else
      let mg := encode c (parsedEditForm r).2
      let a2 : Article :=
        { a with Markdown := mg.1, Gziped := mg.2, ETag := a.ETag + 1 }
      (⟨db.seq, fun k => if k = a2.ID then some a2 else db.articles k⟩, .ok a2.ETag)

/-- The read path `aHandler`: `notFound` from `getArticleByID` maps to a
404 signal, any other fetch error to a 500; `none` is the success
(rendered page) outcome. -/
def aHandler (c : Codec) (db : DB) (id : Nat) : Option NetError :=
  match getArticleByID c db id with
  | .error .notFound => some ⟨404, StoreErr.notFound.msg⟩
  | .error e => some ⟨500, e.msg⟩
  | .ok _ => none

/-- A concrete reversible codec, used to instantiate witnesses. -/
def plainCodec : Codec := ⟨fun s => s, fun s => some s, fun _ => rfl⟩

/-- A concrete hash instance (constant 128-digit hex string), used to
instantiate witnesses. -/
def constSha : Sha512Hex where
  sum := fun _ => List.replicate 128 48
  length_eq := fun _ => by simp
  hex_only := fun _ c hc => by
    have := List.eq_of_mem_replicate hc
    subst this
    decide

/-- Round-trip law of the write-side `encode` against the read-side
`decode`: decoding what a write stored recovers the written body. -/
theorem decode_encode (c : Codec) (m : Bytes) :
    decode c (encode c m).1 (encode c m).2 = some m := by
  by_cases hm : m.length ≥ gzipThreshold
  · simp [encode, decode, hm, c.roundtrip]
  · simp [encode, decode, hm]

/-- Claim C3: `encode` compresses exactly when the body length is at or
above the 200-byte threshold (flag `true`), below it returns the body
unchanged with flag `false`, and in both cases decoding the encoded pair
recovers the original body. -/
theorem C3_encode_threshold_roundtrip (c : Codec) (m : Bytes) :
    ((encode c m).2 = true ↔ gzipThreshold ≤ m.length)
    ∧ (m.length < gzipThreshold → encode c m = (m, false))
    ∧ decode c (encode c m).1 (encode c m).2 = some m := by
  refine ⟨?_, ?_, decode_encode c m⟩
  · by_cases hm : m.length ≥ gzipThreshold
    · simp [encode, hm]
    · simp [encode, hm, Nat.lt_of_not_le hm]
  · intro hm
    simp [encode, Nat.not_le.mpr hm]

/-- Witness for C3 at a concrete short body. -/
theorem C3_encode_threshold_roundtrip_witness :
    ((encode plainCodec [1, 2, 3]).2 = true ↔ gzipThreshold ≤ ([1, 2, 3] : Bytes).length)
    ∧ encode plainCodec [1, 2, 3] = ([1, 2, 3], false)
    ∧ decode plainCodec (encode plainCodec [1, 2, 3]).1 (encode plainCodec [1, 2, 3]).2
        = some [1, 2, 3] :=
  ⟨(C3_encode_threshold_roundtrip plainCodec [1, 2, 3]).1,
   (C3_encode_threshold_roundtrip plainCodec [1, 2, 3]).2.1 (by decide),
   (C3_encode_threshold_roundtrip plainCodec [1, 2, 3]).2.2⟩

/-- Inversion of a successful `getArticleByID`: the bucket holds a record
whose stored body decodes, and the returned record is that record with
the body decoded, the flag cleared and `ID` set from the lookup key. -/
theorem getArticleByID_ok (c : Codec) (db : DB) (id : Nat) (a : Article)
    (hok : getArticleByID c db id = .ok a) :
    ∃ a0 m, db.articles id = some a0 ∧ decode c a0.Markdown a0.Gziped = some m ∧
      a = { a0 with Markdown := m, Gziped := false, ID := id } := by
  cases hdb : db.articles id with
  | none => simp [getArticleByID, hdb] at hok
  | some a0 =>
    cases hdec : decode c a0.Markdown a0.Gziped with
    | none => simp [getArticleByID, hdb, hdec] at hok
    | some m =>
      simp [getArticleByID, hdb, hdec] at hok
      exact ⟨a0, m, rfl, hdec, hok.symm⟩

/-- Reading back a record just stored under its own `ID`, when its stored
body/flag pair came from `encode`, yields the record with the body
decoded back. -/
theorem getArticleByID_put_encoded (c : Codec) (db : DB) (seq : Nat)
    (a : Article) (body : Bytes) (id : Nat)
    (hm : a.Markdown = (encode c body).1) (hg : a.Gziped = (encode c body).2)
    (hid : a.ID = id) :
    getArticleByID c ⟨seq, fun k => if k = a.ID then some a else db.articles k⟩ id
      = .ok { a with Markdown := body, Gziped := false, ID := id } := by
  subst hid
  simp [getArticleByID, hm, hg, decode_encode]

/-- `newHandlerPost` written out as the pair it returns. -/
theorem newHandlerPost_eq (c : Codec) (h : Sha512Hex) (uuid : Bytes) (db : DB)
    (r : Request) :
    newHandlerPost c h uuid db r =
      (⟨db.seq + 1, fun k => if k = db.seq + 1 then
          some ⟨db.seq + 1,
            (if (parsedNewForm r).1 ≠ [] then
              hashPassword h (parsedNewForm r).1
                (if (parsedNewForm r).1 ≠ [] then uuid else [])
            else []),
            (if (parsedNewForm r).1 ≠ [] then uuid else []),
            (encode c (parsedNewForm r).2).1,
            (encode c (parsedNewForm r).2).2, 0⟩
        else db.articles k⟩, Except.ok (db.seq + 1)) := rfl

/-- Inversion of a successful `editHandlerPost`: the fetch succeeded, the
password check passed, the returned revision is the fetched `ETag` plus
one, and the new store holds the re-encoded record under the same key. -/
theorem editHandlerPost_ok (c : Codec) (h : Sha512Hex) (db : DB) (id : Nat)
    (r : Request) (db2 : DB) (rev : Nat)
    (hsucc : editHandlerPost c h db id r = (db2, .ok rev)) :
    ∃ a, getArticleByID c db id = .ok a ∧
      a.Password ≠ [] ∧ hashPassword h r.newpassword a.Salt = a.Password ∧
      rev = a.ETag + 1 ∧
      db2 = ⟨db.seq, fun k => if k = a.ID then
          some { a with Markdown := (encode c r.newbody).1,
                        Gziped := (encode c r.newbody).2, ETag := a.ETag + 1 }
        else db.articles k⟩ := by
  cases hget : getArticleByID c db id with
  | error e => simp [editHandlerPost, hget] at hsucc
  | ok a =>
    by_cases hauth :
        a.Password = [] ∨ hashPassword h (parsedEditForm r).1 a.Salt ≠ a.Password
    · simp [editHandlerPost, hget, hauth] at hsucc
    · have hauth2 := hauth
      push_neg at hauth2
      simp [editHandlerPost, hget, hauth] at hsucc
      refine ⟨a, rfl, hauth2.1, ?_, hsucc.2.symm, hsucc.1.symm⟩
      simpa [parsedEditForm] using hauth2.2

/-- Claim C1: immediately after a create the stored article reads back
with `ETag` (Revision) 0 and the submitted body; after a successful
update the article reads back with the body just submitted and with
`ETag` exactly one more than the `ETag` read at the start of the update,
which is also the revision value the update reports. -/
theorem C1_revision_semantics (c : Codec) (h : Sha512Hex) :
    (∀ uuid db r db2 id, r.rawLen ≤ postLimit →
        newHandlerPost c h uuid db r = (db2, Except.ok id) →
        ∃ a, getArticleByID c db2 id = .ok a ∧ a.Markdown = r.newbody ∧ a.ETag = 0)
    ∧ (∀ db id r db2 rev, editHandlerPost c h db id r = (db2, Except.ok rev) →
        ∃ a0 a1, getArticleByID c db id = .ok a0 ∧
          getArticleByID c db2 id = .ok a1 ∧
          a1.ETag = a0.ETag + 1 ∧ a1.Markdown = r.newbody ∧ rev = a0.ETag + 1) := by
  constructor
  · intro uuid db r db2 id hlen hsucc
    have hform : parsedNewForm r = (r.newpassword, r.newbody) := by
      simp [parsedNewForm, Nat.not_lt.mpr hlen]
    rw [newHandlerPost_eq] at hsucc
    injection hsucc with h1 h2
    injection h2 with h2
    subst h2
    subst h1
    refine ⟨_, getArticleByID_put_encoded c db (db.seq + 1)
      ⟨db.seq + 1,
        (if (parsedNewForm r).1 ≠ [] then
          hashPassword h (parsedNewForm r).1
            (if (parsedNewForm r).1 ≠ [] then uuid else [])
        else []),
        (if (parsedNewForm r).1 ≠ [] then uuid else []),
        (encode c (parsedNewForm r).2).1,
        (encode c (parsedNewForm r).2).2, 0⟩
      (parsedNewForm r).2 (db.seq + 1) rfl rfl rfl, ?_, rfl⟩
    rw [hform]
  · intro db id r db2 rev hsucc
    obtain ⟨a, hget, hp, hpw, hrev, hdb2⟩ := editHandlerPost_ok c h db id r db2 rev hsucc
    obtain ⟨a0, m, hdb, hdec, ha⟩ := getArticleByID_ok c db id a hget
    have haid : a.ID = id := by rw [ha]
    subst hdb2
    have hget2 := getArticleByID_put_encoded c db db.seq
      { a with Markdown := (encode c r.newbody).1,
               Gziped := (encode c r.newbody).2, ETag := a.ETag + 1 }
      r.newbody id rfl rfl haid
    exact ⟨a, _, hget, hget2, rfl, rfl, hrev⟩

/-- Witness for C1 with the concrete codec and hash: create with
password byte `112` and body `[98]`, then edit with the same password and
body `[99]`. -/
theorem C1_revision_semantics_witness :
    (∃ a, getArticleByID plainCodec
        (newHandlerPost plainCodec constSha [1] emptyDB ⟨5, [112], [98]⟩).1 1 = .ok a
        ∧ a.Markdown = [98] ∧ a.ETag = 0)
    ∧ (∃ a0 a1, getArticleByID plainCodec
          (newHandlerPost plainCodec constSha [1] emptyDB ⟨5, [112], [98]⟩).1 1 = .ok a0 ∧
        getArticleByID plainCodec
          (editHandlerPost plainCodec constSha
            (newHandlerPost plainCodec constSha [1] emptyDB ⟨5, [112], [98]⟩).1
            1 ⟨5, [112], [99]⟩).1 1 = .ok a1 ∧
        a1.ETag = a0.ETag + 1 ∧ a1.Markdown = [99] ∧ (1 : Nat) = a0.ETag + 1) := by
  constructor
  · refine (C1_revision_semantics plainCodec constSha).1 [1] emptyDB
      ⟨5, [112], [98]⟩ _ 1 (by decide) ?_
    have h2 : (newHandlerPost plainCodec constSha [1] emptyDB ⟨5, [112], [98]⟩).2
        = Except.ok 1 := rfl
    rw [← h2]
  · refine (C1_revision_semantics plainCodec constSha).2
      (newHandlerPost plainCodec constSha [1] emptyDB ⟨5, [112], [98]⟩).1
      1 ⟨5, [112], [99]⟩ _ 1 ?_
    have h2 : (editHandlerPost plainCodec constSha
        (newHandlerPost plainCodec constSha [1] emptyDB ⟨5, [112], [98]⟩).1
        1 ⟨5, [112], [99]⟩).2 = Except.ok 1 := rfl
    rw [← h2]

/-- Claim C2: an update succeeds only when the stored digest is non-empty
and equals the digest of the supplied password under the stored salt; and
every article created with an empty password rejects every subsequent
edit attempt with the 401 wrong-password error, whatever password is
supplied. -/
theorem C2_update_requires_password (c : Codec) (h : Sha512Hex) :
    (∀ db id r db2 rev, editHandlerPost c h db id r = (db2, Except.ok rev) →
        ∃ a, getArticleByID c db id = .ok a ∧ a.Password ≠ [] ∧
          hashPassword h r.newpassword a.Salt = a.Password)
    ∧ (∀ uuid db r db2 id, r.newpassword = [] →
        newHandlerPost c h uuid db r = (db2, Except.ok id) →
        ∀ r2, (editHandlerPost c h db2 id r2).2 = .error ⟨401, "wrong password"⟩) := by
  constructor
  · intro db id r db2 rev hsucc
    obtain ⟨a, hget, hp, hpw, _, _⟩ := editHandlerPost_ok c h db id r db2 rev hsucc
    exact ⟨a, hget, hp, hpw⟩
  · intro uuid db r db2 id hpw hsucc r2
    have hpw0 : (parsedNewForm r).1 = [] := by
      unfold parsedNewForm
      split <;> simp [hpw]
    rw [newHandlerPost_eq] at hsucc
    injection hsucc with h1 h2
    injection h2 with h2
    subst h2
    subst h1
    simp [editHandlerPost, getArticleByID, hpw0, decode_encode]

/-- Witness for C2: a successful edit on an article with password, and
the permanent 401 on an article created without one. -/
theorem C2_update_requires_password_witness :
    (∃ a, getArticleByID plainCodec
        (newHandlerPost plainCodec constSha [1] emptyDB ⟨5, [112], [98]⟩).1 1 = .ok a
        ∧ a.Password ≠ [] ∧ hashPassword constSha [112] a.Salt = a.Password)
    ∧ (editHandlerPost plainCodec constSha
        (newHandlerPost plainCodec constSha [1] emptyDB ⟨5, [], [98]⟩).1
        1 ⟨5, [], [99]⟩).2 = .error ⟨401, "wrong password"⟩ := by
  constructor
  · refine (C2_update_requires_password plainCodec constSha).1
      (newHandlerPost plainCodec constSha [1] emptyDB ⟨5, [112], [98]⟩).1
      1 ⟨5, [112], [99]⟩
      (editHandlerPost plainCodec constSha
        (newHandlerPost plainCodec constSha [1] emptyDB ⟨5, [112], [98]⟩).1
        1 ⟨5, [112], [99]⟩).1 1 ?_
    have h2 : (editHandlerPost plainCodec constSha
        (newHandlerPost plainCodec constSha [1] emptyDB ⟨5, [112], [98]⟩).1
        1 ⟨5, [112], [99]⟩).2 = Except.ok 1 := rfl
    rw [← h2]
  · refine (C2_update_requires_password plainCodec constSha).2 [1] emptyDB
      ⟨5, [], [98]⟩ _ 1 rfl ?_ ⟨5, [], [99]⟩
    have h2 : (newHandlerPost plainCodec constSha [1] emptyDB ⟨5, [], [98]⟩).2
        = Except.ok 1 := rfl
    rw [← h2]

/-- Claim C4: when an edit fails with the 401 authorization error the
whole store — in particular the record at the edited id — is exactly what
it was before the call. -/
theorem C4_auth_failure_preserves_store (c : Codec) (h : Sha512Hex) (db : DB)
    (id : Nat) (r : Request) (e : NetError)
    (hres : (editHandlerPost c h db id r).2 = .error e) (_hcode : e.code = 401) :
    (editHandlerPost c h db id r).1 = db ∧
    ((editHandlerPost c h db id r).1).articles id = db.articles id := by
  have hdb : (editHandlerPost c h db id r).1 = db := by
    cases hget : getArticleByID c db id with
    | error e2 => simp [editHandlerPost, hget]
    | ok a =>
      by_cases hauth :
          a.Password = [] ∨ hashPassword h (parsedEditForm r).1 a.Salt ≠ a.Password
      · simp [editHandlerPost, hget, hauth]
      · simp [editHandlerPost, hget, hauth] at hres
  exact ⟨hdb, by rw [hdb]⟩

/-- Witness for C4: wrong password against a stored article leaves the
store untouched. -/
theorem C4_auth_failure_preserves_store_witness :
    (editHandlerPost plainCodec constSha
      ⟨1, fun k => if k = 1 then some ⟨1, [5], [7], [98], false, 3⟩ else none⟩
      1 ⟨5, [112], [99]⟩).1
      = ⟨1, fun k => if k = 1 then some ⟨1, [5], [7], [98], false, 3⟩ else none⟩ ∧
    ((editHandlerPost plainCodec constSha
      ⟨1, fun k => if k = 1 then some ⟨1, [5], [7], [98], false, 3⟩ else none⟩
      1 ⟨5, [112], [99]⟩).1).articles 1
      = (⟨1, fun k => if k = 1 then some ⟨1, [5], [7], [98], false, 3⟩ else none⟩ : DB).articles 1 :=
  C4_auth_failure_preserves_store plainCodec constSha
    ⟨1, fun k => if k = 1 then some ⟨1, [5], [7], [98], false, 3⟩ else none⟩
    1 ⟨5, [112], [99]⟩ ⟨401, "wrong password"⟩ rfl rfl

/-- A store holding one article under id 1: password digest set (it is
the `constSha` digest, so password byte 112 verifies), salt `[7]`, body
`[98]` stored uncompressed, revision 3.  Used to instantiate witnesses. -/
def pwDB : DB :=
  ⟨1, fun k => if k = 1 then some ⟨1, List.replicate 128 48, [7], [98], false, 3⟩ else none⟩

/-- Claim C5 counterexample: on the edit write path an absent ID is
surfaced with code 500 (the generic server-fault signal), not with the
404 not-found signal — `editHandler` POST maps every fetch error,
including `notFound`, to a 500. -/
theorem C5_counterexample :
    (editHandlerPost plainCodec constSha emptyDB 1 ⟨0, [], []⟩).2
      = .error ⟨500, "not found"⟩ ∧ (500 : Nat) ≠ 404 :=
  ⟨rfl, by decide⟩

/-- Claim C5 as amended: on the edit write path the store's not-found
error for an absent ID is propagated but surfaced as the generic
server-fault signal (code 500, carrying the not-found message), while an
authorization failure is surfaced as code 401, distinct from both the
not-found signal (404) and the server-fault signal (500). -/
theorem C5_edit_error_signals (c : Codec) (h : Sha512Hex) :
    (∀ db id r, db.articles id = none →
        (editHandlerPost c h db id r).2 = .error ⟨500, "not found"⟩)
    ∧ (∀ db id r a, getArticleByID c db id = .ok a →
        (a.Password = [] ∨ hashPassword h (parsedEditForm r).1 a.Salt ≠ a.Password) →
        (editHandlerPost c h db id r).2 = .error ⟨401, "wrong password"⟩ ∧
          (401 : Nat) ≠ 404 ∧ (401 : Nat) ≠ 500) := by
  constructor
  · intro db id r habs
    have hget : getArticleByID c db id = .error .notFound := by
      simp [getArticleByID, habs]
    simp [editHandlerPost, hget, StoreErr.msg]
  · intro db id r a hget hauth
    refine ⟨?_, by decide, by decide⟩
    simp [editHandlerPost, hget, hauth]

/-- Witness for the amended C5: a missing id gives the 500 signal, a
wrong password against a stored article gives the 401 signal. -/
theorem C5_edit_error_signals_witness :
    ((editHandlerPost plainCodec constSha emptyDB 3 ⟨0, [], []⟩).2
        = .error ⟨500, "not found"⟩)
    ∧ ((editHandlerPost plainCodec constSha
          ⟨1, fun k => if k = 1 then some ⟨1, [5], [7], [98], false, 0⟩ else none⟩
          1 ⟨0, [112], [99]⟩).2 = .error ⟨401, "wrong password"⟩ ∧
        (401 : Nat) ≠ 404 ∧ (401 : Nat) ≠ 500) := by
  constructor
  · exact (C5_edit_error_signals plainCodec constSha).1 emptyDB 3 ⟨0, [], []⟩ rfl
  · exact (C5_edit_error_signals plainCodec constSha).2
      ⟨1, fun k => if k = 1 then some ⟨1, [5], [7], [98], false, 0⟩ else none⟩
      1 ⟨0, [112], [99]⟩ ⟨1, [5], [7], [98], false, 0⟩ rfl (Or.inr (by decide))

/-- Claim C6 counterexample: creating an article with an empty password
stores an empty salt even though a fresh random identifier (`[1, 2, 3]`,
non-empty) was available — the salt is not generated independently of
the password. -/
theorem C6_counterexample :
    ((newHandlerPost plainCodec constSha [1, 2, 3] emptyDB ⟨5, [], [98]⟩).1).articles 1
      = some ⟨1, [], [], [98], false, 0⟩ ∧ ([] : Bytes) ≠ [1, 2, 3] :=
  ⟨rfl, by decide⟩

/-- Claim C6 as amended: at creation the salt is set to the freshly
generated random identifier only when a non-empty password was supplied;
an article created with an empty password is stored with an empty
salt. -/
theorem C6_salt_only_with_password (c : Codec) (h : Sha512Hex) (uuid : Bytes)
    (db : DB) (r : Request) (db2 : DB) (id : Nat)
    (hsucc : newHandlerPost c h uuid db r = (db2, Except.ok id)) :
    ∃ a, db2.articles id = some a ∧
      a.Salt = (if (parsedNewForm r).1 ≠ [] then uuid else []) := by
  rw [newHandlerPost_eq] at hsucc
  injection hsucc with h1 h2
  injection h2 with h2
  subst h2
  subst h1
  refine ⟨⟨db.seq + 1,
    (if (parsedNewForm r).1 ≠ [] then
      hashPassword h (parsedNewForm r).1
        (if (parsedNewForm r).1 ≠ [] then uuid else [])
    else []),
    (if (parsedNewForm r).1 ≠ [] then uuid else []),
    (encode c (parsedNewForm r).2).1, (encode c (parsedNewForm r).2).2, 0⟩,
    ?_, rfl⟩
  simp

/-- Witness for the amended C6: with a non-empty password the stored
salt is the generated identifier. -/
theorem C6_salt_only_with_password_witness :
    ∃ a, ((newHandlerPost plainCodec constSha [1, 2, 3] emptyDB
        ⟨5, [112], [98]⟩).1).articles 1 = some a ∧
      a.Salt = (if (parsedNewForm ⟨5, [112], [98]⟩).1 ≠ [] then [1, 2, 3] else []) := by
  refine C6_salt_only_with_password plainCodec constSha [1, 2, 3] emptyDB
    ⟨5, [112], [98]⟩ _ 1 ?_
  have h2 : (newHandlerPost plainCodec constSha [1, 2, 3] emptyDB ⟨5, [112], [98]⟩).2
      = Except.ok 1 := rfl
  rw [← h2]

/-- Claim C7: the digest of the empty password is the empty string for
every salt; for a non-empty password the digest is the (fixed-length,
128 lowercase-hex-digit) hash of the concatenation of password and salt;
and equal inputs always give equal outputs. -/
theorem C7_digest_properties (h : Sha512Hex) :
    (∀ salt, hashPassword h [] salt = [])
    ∧ (∀ p salt, p ≠ [] →
        hashPassword h p salt = h.sum (p ++ salt) ∧
        (hashPassword h p salt).length = 128 ∧
        ∀ b ∈ hashPassword h p salt, isHexByte b = true)
    ∧ (∀ p1 p2 s1 s2, p1 = p2 → s1 = s2 →
        hashPassword h p1 s1 = hashPassword h p2 s2) := by
  refine ⟨fun salt => by simp [hashPassword], ?_, ?_⟩
  · intro p salt hp
    refine ⟨by simp [hashPassword, hp], by simp [hashPassword, hp, h.length_eq], ?_⟩
    intro b hb
    rw [hashPassword, if_neg hp] at hb
    exact h.hex_only _ b hb
  · intro p1 p2 s1 s2 hp hs
    rw [hp, hs]

/-- Witness for C7 at the concrete hash instance. -/
theorem C7_digest_properties_witness :
    hashPassword constSha [112] [7] = constSha.sum ([112] ++ [7]) ∧
    (hashPassword constSha [112] [7]).length = 128 ∧
    (∀ b ∈ hashPassword constSha [112] [7], isHexByte b = true) ∧
    hashPassword constSha [] [7] = [] := by
  obtain ⟨e1, e2, e3⟩ := (C7_digest_properties constSha).2.1 [112] [7] (by decide)
  exact ⟨e1, e2, e3, (C7_digest_properties constSha).1 [7]⟩

/-- Claim C8: fetching an id with no record fails with the `notFound`
condition (never the decompression storage fault), and the read path
maps it to the 404 signal. -/
theorem C8_get_missing_not_found (c : Codec) (db : DB) (id : Nat)
    (habs : db.articles id = none) :
    getArticleByID c db id = .error .notFound ∧
    aHandler c db id = some ⟨404, "not found"⟩ := by
  have hget : getArticleByID c db id = .error .notFound := by
    simp [getArticleByID, habs]
  exact ⟨hget, by simp [aHandler, hget, StoreErr.msg]⟩

/-- Witness for C8 on the empty store. -/
theorem C8_get_missing_not_found_witness :
    getArticleByID plainCodec emptyDB 7 = .error .notFound ∧
    aHandler plainCodec emptyDB 7 = some ⟨404, "not found"⟩ :=
  C8_get_missing_not_found plainCodec emptyDB 7 rfl

/-- Claim C9: a successful update rewrites only `Markdown`, `Gziped` and
`ETag` of the stored record; `ID`, `Salt` and `Password` are identical
before and after, and no other key of the store changes. -/
theorem C9_update_frame (c : Codec) (h : Sha512Hex) (db : DB) (id : Nat)
    (r : Request) (db2 : DB) (rev : Nat) (a0 : Article)
    (hstored : db.articles id = some a0) (hkey : a0.ID = id)
    (hsucc : editHandlerPost c h db id r = (db2, Except.ok rev)) :
    ∃ a1, db2.articles id = some a1 ∧
      a1.ID = a0.ID ∧ a1.Salt = a0.Salt ∧ a1.Password = a0.Password ∧
      a1.Markdown = (encode c r.newbody).1 ∧ a1.Gziped = (encode c r.newbody).2 ∧
      a1.ETag = a0.ETag + 1 ∧
      ∀ k, k ≠ id → db2.articles k = db.articles k := by
  obtain ⟨a, hget, hp, hpw, hrev, hdb2⟩ := editHandlerPost_ok c h db id r db2 rev hsucc
  obtain ⟨a0x, m, hdbx, hdec, ha⟩ := getArticleByID_ok c db id a hget
  rw [hstored] at hdbx
  injection hdbx with hdbx
  subst hdbx
  subst hdb2
  subst ha
  refine ⟨⟨id, a0.Password, a0.Salt, (encode c r.newbody).1,
      (encode c r.newbody).2, a0.ETag + 1⟩, by simp, hkey.symm, rfl, rfl, rfl, rfl,
      rfl, ?_⟩
  intro k hk
  simp [hk]

/-- Witness for C9: a successful edit of the `pwDB` article preserves
`ID`, `Salt` and `Password` and touches no other key. -/
theorem C9_update_frame_witness :
    ∃ a1, ((editHandlerPost plainCodec constSha pwDB 1 ⟨5, [112], [99]⟩).1).articles 1
        = some a1 ∧
      a1.ID = 1 ∧ a1.Salt = [7] ∧ a1.Password = List.replicate 128 48 ∧
      a1.Markdown = (encode plainCodec [99]).1 ∧
      a1.Gziped = (encode plainCodec [99]).2 ∧
      a1.ETag = 4 ∧
      ∀ k, k ≠ 1 →
        ((editHandlerPost plainCodec constSha pwDB 1 ⟨5, [112], [99]⟩).1).articles k
          = pwDB.articles k := by
  refine C9_update_frame plainCodec constSha pwDB 1 ⟨5, [112], [99]⟩ _ 4
    ⟨1, List.replicate 128 48, [7], [98], false, 3⟩ rfl rfl ?_
  have h2 : (editHandlerPost plainCodec constSha pwDB 1 ⟨5, [112], [99]⟩).2
      = Except.ok 4 := rfl
  rw [← h2]

/-- Claim C10: only the create path enforces the 30000-byte request-body
ceiling before parsing (an oversized create request parses to empty form
fields), the edit path parses the form with no ceiling, and a successful
edit stores a record that decodes to the submitted body whatever its
length. -/
theorem C10_size_limit_only_on_create (c : Codec) (h : Sha512Hex) :
    (∀ r : Request, r.rawLen > postLimit → parsedNewForm r = ([], []))
    ∧ (∀ r : Request, parsedEditForm r = (r.newpassword, r.newbody))
    ∧ (∀ db id r db2 rev, editHandlerPost c h db id r = (db2, Except.ok rev) →
        ∃ a1, db2.articles id = some a1 ∧
          decode c a1.Markdown a1.Gziped = some r.newbody) := by
  refine ⟨fun r hr => by simp [parsedNewForm, hr], fun r => rfl, ?_⟩
  intro db id r db2 rev hsucc
  obtain ⟨a, hget, hp, hpw, hrev, hdb2⟩ := editHandlerPost_ok c h db id r db2 rev hsucc
  obtain ⟨a0, m, hdbx, hdec, ha⟩ := getArticleByID_ok c db id a hget
  have haid : a.ID = id := by rw [ha]
  subst hdb2
  refine ⟨⟨a.ID, a.Password, a.Salt, (encode c r.newbody).1,
      (encode c r.newbody).2, a.ETag + 1⟩, ?_, ?_⟩
  · simp [haid]
  · exact decode_encode c r.newbody

/-- Witness for C10: an oversized create request parses empty, the same
request parses intact on the edit path, and an edit against `pwDB` with
an oversized raw body still stores its submitted body. -/
theorem C10_size_limit_only_on_create_witness :
    parsedNewForm ⟨30001, [112], [98]⟩ = ([], []) ∧
    parsedEditForm ⟨30001, [112], [98]⟩ = ([112], [98]) ∧
    ∃ a1, ((editHandlerPost plainCodec constSha pwDB 1 ⟨30001, [112], [99]⟩).1).articles 1
        = some a1 ∧
      decode plainCodec a1.Markdown a1.Gziped = some [99] := by
  refine ⟨(C10_size_limit_only_on_create plainCodec constSha).1
      ⟨30001, [112], [98]⟩ (by decide),
    (C10_size_limit_only_on_create plainCodec constSha).2.1 ⟨30001, [112], [98]⟩, ?_⟩
  refine (C10_size_limit_only_on_create plainCodec constSha).2.2 pwDB 1
    ⟨30001, [112], [99]⟩ _ 4 ?_
  have h2 : (editHandlerPost plainCodec constSha pwDB 1 ⟨30001, [112], [99]⟩).2
      = Except.ok 4 := rfl
  rw [← h2]

end Typed
